import Mathlib

/-!
Verification of the chess position/notation core of the pabi repository
(namespaces aiseu::chess and bibimbap::chess; the two are near-identical
copies of one design and are embedded once below).

Source layout embedded here:
- bibimbap/chess/board.h: Side, PieceKind, Position, PieceSet,
  PieceCentricBoard (fields and default member initializers).
- bibimbap/chess/game.h: Game (fields and default member initializers).
- aiseu/chess/notation.cc: FileToNumeric, AlgebraicPosition, the
  piece-to-symbol lookup tables, PieceCentricBoard::Dump(std::ostream&).
- aiseu/chess/board.cc: PieceSet::PieceSet(Side), the sink-less
  Dump/DumpFigurine/DumpFEN overloads.

Conventions of the embedding:
- Text is List Char.
- ABSL_ASSERT firing (a non-recoverable abort in assertion-enabled builds)
  is modelled as the distinguished outcome NotationError.assertionFailure;
  a recoverable error value of the kind the design document calls
  InvalidNotation is the distinct outcome NotationError.invalidNotationError.
  The source only ever produces the former.
- C++ members left unset by a constructor (default-initialized Position
  members and arrays) are modelled as Option values that remain none.
- Machine integers hold small values here (0..255); they are modelled as Nat,
  with truncation written explicitly as % 256 where the source narrows a
  wider value into a char.
-/

namespace Chess

/-- Side enumeration from bibimbap/chess/board.h. -/
inductive Side : Type where
  | kWhite : Side
  | kBlack : Side
deriving DecidableEq

/-- PieceKind enumeration from bibimbap/chess/board.h. -/
inductive PieceKind : Type where
  | kKing : PieceKind
  | kQueen : PieceKind
  | kRook : PieceKind
  | kBishop : PieceKind
  | kKnight : PieceKind
  | kPawn : PieceKind
deriving DecidableEq

/-- Position from bibimbap/chess/board.h: a file/rank pair of std::uint8_t. -/
structure Position : Type where
  file : Nat
  rank : Nat
deriving DecidableEq

/-- Outcomes of a failing parse in this embedding. assertionFailure models the
ABSL_ASSERT macro firing (an abort, not a recoverable error);
invalidNotationError models the recoverable error value the design document
names InvalidNotation, which the source never constructs. -/
inductive NotationError : Type where
  | assertionFailure : NotationError
  | invalidNotationError : NotationError
deriving DecidableEq

deriving instance DecidableEq for Except

/-- FileToNumeric from aiseu/chess/notation.cc lines 43-46: asserts
'a' <= file <= 'h', then returns file - 'a'. -/
def FileToNumeric (file : Char) : Except NotationError Nat :=
  if 'a' ≤ file ∧ file ≤ 'h' then Except.ok (file.toNat - 'a'.toNat)
  else Except.error NotationError.assertionFailure

/-- AlgebraicPosition from aiseu/chess/notation.cc lines 48-53: asserts
size == 2, asserts '1' <= position[1] <= '8', then builds the Position from
FileToNumeric(position[0]) (which itself asserts the file range) and
position[1] - '0'. -/
def AlgebraicPosition (position : List Char) : Except NotationError Position :=
  match position with
  | [c0, c1] =>
    if '1' ≤ c1 ∧ c1 ≤ '8' then
      match FileToNumeric c0 with
      | Except.ok f => Except.ok ⟨f, c1.toNat - '0'.toNat⟩
      | Except.error e => Except.error e
    else Except.error NotationError.assertionFailure
  | _ => Except.error NotationError.assertionFailure

/-- Reference behaviour of the square parser, written from the design
document's words (section 4.1): exactly 2 characters, file 'a'..'h', rank
'1'..'8', and any violation is a failure. It is compared against the
source-embedded AlgebraicPosition. -/
def algebraicSquareSpec (cs : List Char) : Except NotationError Position :=
  match cs with
  | [c0, c1] =>
    if 'a' ≤ c0 ∧ c0 ≤ 'h' ∧ '1' ≤ c1 ∧ c1 ≤ '8' then
      Except.ok ⟨c0.toNat - 'a'.toNat, c1.toNat - '0'.toNat⟩
    else Except.error NotationError.assertionFailure
  | _ => Except.error NotationError.assertionFailure

/-- kWhitePieceToAlgebraic from aiseu/chess/notation.cc lines 14-18,
value for value (the knight entry in the source is the letter 'K'). -/
def kWhitePieceToAlgebraic : PieceKind → Char
  | PieceKind.kKing => 'K'
  | PieceKind.kQueen => 'Q'
  | PieceKind.kRook => 'R'
  | PieceKind.kBishop => 'B'
  | PieceKind.kKnight => 'K'
  | PieceKind.kPawn => 'P'

/-- kBlackPieceToAlgebraic from aiseu/chess/notation.cc lines 19-23,
value for value (the knight entry in the source is the letter 'k'). -/
def kBlackPieceToAlgebraic : PieceKind → Char
  | PieceKind.kKing => 'k'
  | PieceKind.kQueen => 'q'
  | PieceKind.kRook => 'r'
  | PieceKind.kBishop => 'b'
  | PieceKind.kKnight => 'k'
  | PieceKind.kPawn => 'p'

/-- Unicode code points the white figurine table is written with in
aiseu/chess/notation.cc lines 27-31 (char16_t literals U+2654..U+2659). -/
def whiteFigurineCodepoint : PieceKind → Nat
  | PieceKind.kKing => 0x2654
  | PieceKind.kQueen => 0x2655
  | PieceKind.kRook => 0x2656
  | PieceKind.kBishop => 0x2657
  | PieceKind.kKnight => 0x2658
  | PieceKind.kPawn => 0x2659

/-- Unicode code points the black figurine table is written with in
aiseu/chess/notation.cc lines 32-36. The source repeats the white code points
U+2654..U+2659 instead of the black glyphs U+265A..U+265F. -/
def blackFigurineCodepoint : PieceKind → Nat
  | PieceKind.kKing => 0x2654
  | PieceKind.kQueen => 0x2655
  | PieceKind.kRook => 0x2656
  | PieceKind.kBishop => 0x2657
  | PieceKind.kKnight => 0x2658
  | PieceKind.kPawn => 0x2659

/-- kWhitePieceToFigurine: the map's mapped type is char, so storing the
char16_t literal narrows it modulo 2^8. -/
def kWhitePieceToFigurine (k : PieceKind) : Char :=
  Char.ofNat (whiteFigurineCodepoint k % 256)

/-- kBlackPieceToFigurine: same narrowing modulo 2^8 as the white table. -/
def kBlackPieceToFigurine (k : PieceKind) : Char :=
  Char.ofNat (blackFigurineCodepoint k % 256)

/-- PieceSet fields and default member initializers from
bibimbap/chess/board.h lines 56-83. kInitialPawnsCount = 8, and the source
initializes num_knights_, num_bishops_ and num_rooks_ from kInitialPawnsCount
as well. Position members the constructor leaves untouched are modelled as
none. -/
structure PieceSet : Type where
  owner : Side
  num_pawns : Nat := 8
  num_knights : Nat := 8
  num_bishops : Nat := 8
  num_rooks : Nat := 8
  has_queen : Bool := true
  king_position : Option Position := none
  queen_position : Option Position := none
  pawn_positions : Option (List Position) := none
  knight_positions : Option (List Position) := none
  bishop_positions : Option (List Position) := none
  rook_positions : Option (List Position) := none
deriving DecidableEq

/-- PieceSet::PieceSet(Side) from aiseu/chess/board.cc lines 9-17: for White
it assigns king_position_ = AlgebraicPosition("e1") and the pawn array from
AlgebraicPosition on "a2" .. "g2" and on the three-character literal "h2)";
for Black it assigns nothing. Each AlgebraicPosition call may fire an
assertion, so construction is fallible in this embedding. -/
def mkPieceSet (owner : Side) : Except NotationError PieceSet :=
  match owner with
  | Side.kWhite => do
    let king ← AlgebraicPosition ['e', '1']
    let p1 ← AlgebraicPosition ['a', '2']
    let p2 ← AlgebraicPosition ['b', '2']
    let p3 ← AlgebraicPosition ['c', '2']
    let p4 ← AlgebraicPosition ['d', '2']
    let p5 ← AlgebraicPosition ['e', '2']
    let p6 ← AlgebraicPosition ['f', '2']
    let p7 ← AlgebraicPosition ['g', '2']
    let p8 ← AlgebraicPosition ['h', '2', ')']
    Except.ok { owner := owner,
                king_position := some king,
                pawn_positions := some [p1, p2, p3, p4, p5, p6, p7, p8] }
  | Side.kBlack => Except.ok { owner := owner }

/-- Count of live pieces a PieceSet records, as enumerated by its count
fields: pawns, knights, bishops, rooks, the queen when has_queen is set, and
the one king the structure always holds. -/
def PieceSet.totalCount (ps : PieceSet) : Nat :=
  ps.num_pawns + ps.num_knights + ps.num_bishops + ps.num_rooks +
    (if ps.has_queen then 1 else 0) + 1

/-- PieceCentricBoard fields from bibimbap/chess/board.h lines 102-105. -/
structure PieceCentricBoard : Type where
  black_pieces : PieceSet
  white_pieces : PieceSet
deriving DecidableEq

/-- Default construction of PieceCentricBoard: the default member
initializers in bibimbap/chess/board.h lines 103-104 construct
black_pieces_ = PieceSet(Side::kBlack) and also
white_pieces_ = PieceSet(Side::kBlack). -/
def mkPieceCentricBoard : Except NotationError PieceCentricBoard := do
  let b ← mkPieceSet Side.kBlack
  let w ← mkPieceSet Side.kBlack
  Except.ok { black_pieces := b, white_pieces := w }

/-- Game fields and default member initializers from bibimbap/chess/game.h
lines 17-43: fullmove_number_ = 0, active_player_ = Side::kWhite, all four
castling-availability flags false, halfmove_clock_ = 0, and
board_ a default-constructed std::unique_ptr<Board>, i.e. null (none). -/
structure Game : Type where
  fullmove_number : Nat := 0
  active_player : Side := Side.kWhite
  white_king_side_castle_available : Bool := false
  white_queen_side_castle_available : Bool := false
  black_king_side_castle_available : Bool := false
  black_queen_side_castle_available : Bool := false
  halfmove_clock : Nat := 0
  board : Option PieceCentricBoard := none
deriving DecidableEq

/-- Game() is defaulted in the source, so it takes every default member
initializer above. -/
def mkGame : Game := {}

/-! ## The FEN codec

The repository only declares the codec (`Game ReadFEN();` in notation.h, no
FormatFEN anywhere) — the functions below are modelled from the design
document's section 4.4 and are marked as such. -/

/-- Occupant of one square in a parsed FEN board field. -/
abbrev Cell := Option (Side × PieceKind)

/-- Modelled from the spec: the standard FEN piece letters ("algebraic
letters, uppercase White, lowercase Black") used by the codec, which the
repository only declares. -/
def pieceChar : Side × PieceKind → Char
  | (Side.kWhite, PieceKind.kKing) => 'K'
  | (Side.kWhite, PieceKind.kQueen) => 'Q'
  | (Side.kWhite, PieceKind.kRook) => 'R'
  | (Side.kWhite, PieceKind.kBishop) => 'B'
  | (Side.kWhite, PieceKind.kKnight) => 'N'
  | (Side.kWhite, PieceKind.kPawn) => 'P'
  | (Side.kBlack, PieceKind.kKing) => 'k'
  | (Side.kBlack, PieceKind.kQueen) => 'q'
  | (Side.kBlack, PieceKind.kRook) => 'r'
  | (Side.kBlack, PieceKind.kBishop) => 'b'
  | (Side.kBlack, PieceKind.kKnight) => 'n'
  | (Side.kBlack, PieceKind.kPawn) => 'p'

/-- Modelled from the spec: inverse letter lookup of the FEN codec. -/
def charPiece (c : Char) : Option (Side × PieceKind) :=
  match c with
  | 'K' => some (Side.kWhite, PieceKind.kKing)
  | 'Q' => some (Side.kWhite, PieceKind.kQueen)
  | 'R' => some (Side.kWhite, PieceKind.kRook)
  | 'B' => some (Side.kWhite, PieceKind.kBishop)
  | 'N' => some (Side.kWhite, PieceKind.kKnight)
  | 'P' => some (Side.kWhite, PieceKind.kPawn)
  | 'k' => some (Side.kBlack, PieceKind.kKing)
  | 'q' => some (Side.kBlack, PieceKind.kQueen)
  | 'r' => some (Side.kBlack, PieceKind.kRook)
  | 'b' => some (Side.kBlack, PieceKind.kBishop)
  | 'n' => some (Side.kBlack, PieceKind.kKnight)
  | 'p' => some (Side.kBlack, PieceKind.kPawn)
  | _ => none

/-- Modelled from the spec: rank 1..8 as the digit character. -/
def rankToChar : Nat → Char
  | 1 => '1'
  | 2 => '2'
  | 3 => '3'
  | 4 => '4'
  | 5 => '5'
  | 6 => '6'
  | 7 => '7'
  | 8 => '8'
  | _ => '?'

/-- Modelled from the spec: digit character back to the rank 1..8. -/
def charToRank (c : Char) : Option Nat :=
  if '1' ≤ c ∧ c ≤ '8' then some (c.toNat - '0'.toNat) else none

/-- Modelled from the spec: digit that compresses a run of n consecutive
empty squares in a FEN rank (a rank holds at most 8, so n stays in 0..8). -/
def emitEmpties : Nat → List Char
  | 0 => []
  | n + 1 => [rankToChar (n + 1)]

/-- Modelled from the spec: FEN rank formatting; n counts the empty squares
seen since the last emitted symbol. -/
def formatRankAux : List Cell → Nat → List Char
  | [], n => emitEmpties n
  | none :: rest, n => formatRankAux rest (n + 1)
  | some pc :: rest, n => emitEmpties n ++ pieceChar pc :: formatRankAux rest 0

/-- Modelled from the spec: one rank of the FEN board field. -/
def formatRank (cells : List Cell) : List Char :=
  formatRankAux cells 0

/-- Modelled from the spec: FEN rank parsing; a digit 1..8 expands to that
many empty squares, a piece letter to one occupied square. -/
def parseRankChars : List Char → Option (List Cell)
  | [] => some []
  | c :: cs =>
    match charToRank c with
    | some d =>
      (parseRankChars cs).map (fun cells => List.replicate d (none : Cell) ++ cells)
    | none =>
      match charPiece c with
      | some pc => (parseRankChars cs).map (fun cells => some pc :: cells)
      | none => none

/-- Modelled from the spec: a parsed rank must describe exactly 8 files. -/
def parseRank (cs : List Char) : Option (List Cell) :=
  (parseRankChars cs).bind (fun cells => if cells.length = 8 then some cells else none)

/-- Modelled from the spec: the 8 ranks of the board field are separated by
the slash character. -/
def formatBoard : List (List Cell) → List Char
  | [] => []
  | [r] => formatRank r
  | r :: rest => formatRank r ++ '/' :: formatBoard rest

/-- Splitting a character list on a separator, every separator occurrence
delimiting a (possibly empty) field. -/
def splitOnChar (sep : Char) : List Char → List (List Char)
  | [] => [[]]
  | c :: cs =>
    if c = sep then [] :: splitOnChar sep cs
    else
      match splitOnChar sep cs with
      | [] => [[c]]
      | f :: fs => (c :: f) :: fs

/-- Parsing every rank chunk of the board field in order. -/
def parseRanks : List (List Char) → Option (List (List Cell))
  | [] => some []
  | f :: fs =>
    match parseRank f, parseRanks fs with
    | some r, some rs => some (r :: rs)
    | _, _ => none

/-- Modelled from the spec: board-field parsing; the field must hold exactly
8 slash-separated ranks. -/
def parseBoard (cs : List Char) : Option (List (List Cell)) :=
  let parts := splitOnChar '/' cs
  if parts.length = 8 then parseRanks parts else none

/-- Modelled from the spec: the active-color field is 'w' or 'b'. -/
def formatActive : Side → List Char
  | Side.kWhite => ['w']
  | Side.kBlack => ['b']

/-- Modelled from the spec: parsing the active-color field. -/
def parseActive : List Char → Option Side
  | ['w'] => some Side.kWhite
  | ['b'] => some Side.kBlack
  | _ => none

/-- Modelled from the spec: the castling field is the subset of "KQkq" that
is available, in that order, or "-" when none is. -/
def formatCastling (wk wq bk bq : Bool) : List Char :=
  let s := (if wk then ['K'] else []) ++ (if wq then ['Q'] else []) ++
           (if bk then ['k'] else []) ++ (if bq then ['q'] else [])
  if s = [] then ['-'] else s

/-- Strips one optional leading flag character. -/
def stripFlag (c : Char) : List Char → Bool × List Char
  | [] => (false, [])
  | d :: rest => if d = c then (true, rest) else (false, d :: rest)

/-- Modelled from the spec: parsing the castling field. -/
def parseCastling (cs : List Char) : Option (Bool × Bool × Bool × Bool) :=
  if cs = ['-'] then some (false, false, false, false)
  else if cs = [] then none
  else
    let r1 := stripFlag 'K' cs
    let r2 := stripFlag 'Q' r1.2
    let r3 := stripFlag 'k' r2.2
    let r4 := stripFlag 'q' r3.2
    if r4.2 = [] then some (r1.1, r2.1, r3.1, r4.1) else none

/-- Modelled from the spec: file number 0..7 as the letter 'a'..'h'. -/
def fileToChar : Nat → Char
  | 0 => 'a'
  | 1 => 'b'
  | 2 => 'c'
  | 3 => 'd'
  | 4 => 'e'
  | 5 => 'f'
  | 6 => 'g'
  | 7 => 'h'
  | _ => '?'

/-- Modelled from the spec: letter 'a'..'h' back to the file number. -/
def charToFile (c : Char) : Option Nat :=
  if 'a' ≤ c ∧ c ≤ 'h' then some (c.toNat - 'a'.toNat) else none

/-- Modelled from the spec: the en-passant field is '-' or a square. -/
def formatEnPassant : Option Position → List Char
  | none => ['-']
  | some p => [fileToChar p.file, rankToChar p.rank]

/-- Modelled from the spec: parsing the en-passant field. -/
def parseEnPassant : List Char → Option (Option Position)
  | ['-'] => some none
  | [c0, c1] =>
    match charToFile c0, charToRank c1 with
    | some f, some r => some (some ⟨f, r⟩)
    | _, _ => none
  | _ => none

/-- Decimal digit 0..9 as a character. -/
def digitToChar : Nat → Char
  | 0 => '0'
  | 1 => '1'
  | 2 => '2'
  | 3 => '3'
  | 4 => '4'
  | 5 => '5'
  | 6 => '6'
  | 7 => '7'
  | 8 => '8'
  | 9 => '9'
  | _ => '?'

/-- Modelled from the spec: a counter printed as its decimal digits. -/
def natToChars (n : Nat) : List Char :=
  if n = 0 then ['0'] else (Nat.digits 10 n).reverse.map digitToChar

/-- Test for a decimal digit character. -/
def isDigitChar (c : Char) : Bool :=
  '0' ≤ c && c ≤ '9'

/-- Accumulating decimal read of a digit-character list. -/
def charsToNatAux : List Char → Nat → Nat
  | [], acc => acc
  | c :: cs, acc => charsToNatAux cs (10 * acc + (c.toNat - '0'.toNat))

/-- Modelled from the spec: a counter field parsed as a non-negative decimal
integer; anything else is rejected. -/
def parseNat (cs : List Char) : Option Nat :=
  if cs = [] then none
  else if cs.all isDigitChar then some (charsToNatAux cs 0) else none

/-- Modelled from the spec: the observable state of a Game that FEN carries
(section 3 of the design document): board, active player, the four castling
flags, the en-passant target, and the two counters. -/
structure FenGame : Type where
  board : List (List Cell)
  active_player : Side
  white_king_side_castle : Bool
  white_queen_side_castle : Bool
  black_king_side_castle : Bool
  black_queen_side_castle : Bool
  en_passant_target : Option Position
  halfmove_clock : Nat
  fullmove_number : Nat
deriving DecidableEq

/-- Range check for a square: file 0..7, rank 1..8 (section 3). -/
def posInRangeB (p : Position) : Bool :=
  decide (p.file < 8) && decide (1 ≤ p.rank) && decide (p.rank ≤ 8)

/-- Range check for the optional en-passant target. -/
def epOKB : Option Position → Bool
  | none => true
  | some p => posInRangeB p

/-- Structural well-formedness of a FEN game state: an 8x8 board and an
in-range en-passant square; every reachable Game satisfies this. -/
def FenGame.wellFormedB (g : FenGame) : Bool :=
  decide (g.board.length = 8) && g.board.all (fun r => decide (r.length = 8)) &&
    epOKB g.en_passant_target

/-- Modelled from the spec: FormatFEN emits the 6 space-separated fields. -/
def FormatFEN (g : FenGame) : List Char :=
  formatBoard g.board ++ (' ' ::
    (formatActive g.active_player ++ (' ' ::
      (formatCastling g.white_king_side_castle g.white_queen_side_castle
          g.black_king_side_castle g.black_queen_side_castle ++ (' ' ::
        (formatEnPassant g.en_passant_target ++ (' ' ::
          (natToChars g.halfmove_clock ++ (' ' ::
            natToChars g.fullmove_number)))))))))

/-- The FEN field a parse failure is attributed to (section 4.4: MalformedFEN
names the offending field). -/
inductive FENField : Type where
  | boardField : FENField
  | activeColor : FENField
  | castlingRights : FENField
  | enPassantTarget : FENField
  | halfmoveClock : FENField
  | fullmoveNumber : FENField
  | fieldCount : FENField
deriving DecidableEq

/-- Modelled from the spec: ParseFEN splits on the 6 space-separated fields
and parses each, failing with the name of the offending field. -/
def ParseFEN (cs : List Char) : Except FENField FenGame :=
  match splitOnChar ' ' cs with
  | [f1, f2, f3, f4, f5, f6] =>
    match parseBoard f1 with
    | none => Except.error FENField.boardField
    | some b =>
      match parseActive f2 with
      | none => Except.error FENField.activeColor
      | some ap =>
        match parseCastling f3 with
        | none => Except.error FENField.castlingRights
        | some (wk, wq, bk, bq) =>
          match parseEnPassant f4 with
          | none => Except.error FENField.enPassantTarget
          | some ep =>
            match parseNat f5 with
            | none => Except.error FENField.halfmoveClock
            | some hm =>
              match parseNat f6 with
              | none => Except.error FENField.fullmoveNumber
              | some fm =>
                Except.ok { board := b, active_player := ap,
                            white_king_side_castle := wk,
                            white_queen_side_castle := wq,
                            black_king_side_castle := bk,
                            black_queen_side_castle := bq,
                            en_passant_target := ep,
                            halfmove_clock := hm,
                            fullmove_number := fm }
  | _ => Except.error FENField.fieldCount

/-- Back rank of one side in the standard starting position. -/
def backRank (s : Side) : List Cell :=
  [some (s, PieceKind.kRook), some (s, PieceKind.kKnight),
   some (s, PieceKind.kBishop), some (s, PieceKind.kQueen),
   some (s, PieceKind.kKing), some (s, PieceKind.kBishop),
   some (s, PieceKind.kKnight), some (s, PieceKind.kRook)]

/-- Pawn rank of one side in the standard starting position. -/
def pawnRank (s : Side) : List Cell :=
  List.replicate 8 (some (s, PieceKind.kPawn))

/-- A rank of 8 empty squares. -/
def emptyRank : List Cell :=
  List.replicate 8 (none : Cell)

/-- The standard chess starting position as a FEN game state. -/
def startFenGame : FenGame :=
  { board := [backRank Side.kBlack, pawnRank Side.kBlack, emptyRank, emptyRank,
              emptyRank, emptyRank, pawnRank Side.kWhite, backRank Side.kWhite],
    active_player := Side.kWhite,
    white_king_side_castle := true,
    white_queen_side_castle := true,
    black_king_side_castle := true,
    black_queen_side_castle := true,
    en_passant_target := none,
    halfmove_clock := 0,
    fullmove_number := 1 }

/-! ## Board dumps

aiseu/chess/notation.cc line 55 defines PieceCentricBoard::Dump(std::ostream&)
with an empty body; the sink-taking DumpFigurine and DumpFEN implementations
(bibimbap/chess/notation.cc) are not in src and are modelled from the design
document. The sink-less overloads are embedded from aiseu/chess/board.cc
lines 19-32. -/

/-- Modelled from the spec: occupancy lookup inside one PieceSet by scanning
the recorded piece positions (OccupantAt is declared in the design document's
section 4.3 but not implemented in src). -/
def PieceSet.pieceAt (ps : PieceSet) (p : Position) : Option PieceKind :=
  if ps.king_position = some p then some PieceKind.kKing
  else if ps.queen_position = some p then some PieceKind.kQueen
  else if p ∈ ps.pawn_positions.getD [] then some PieceKind.kPawn
  else if p ∈ ps.knight_positions.getD [] then some PieceKind.kKnight
  else if p ∈ ps.bishop_positions.getD [] then some PieceKind.kBishop
  else if p ∈ ps.rook_positions.getD [] then some PieceKind.kRook
  else none

/-- Modelled from the spec: OccupantAt for the piece-centric board, scanning
the piece set held in the white_pieces field and then the one in the
black_pieces field (side attribution follows the field names). -/
def PieceCentricBoard.OccupantAt (b : PieceCentricBoard) (p : Position) :
    Option (Side × PieceKind) :=
  match b.white_pieces.pieceAt p with
  | some k => some (Side.kWhite, k)
  | none =>
    match b.black_pieces.pieceAt p with
    | some k => some (Side.kBlack, k)
    | none => none

/-- One rendered rank: files a..h left to right, '.' for an empty square. -/
def renderRankWith (symbol : Side → PieceKind → Char) (b : PieceCentricBoard)
    (rank : Nat) : List Char :=
  (List.range 8).map (fun f =>
    match b.OccupantAt ⟨f, rank⟩ with
    | some (s, k) => symbol s k
    | none => '.')

/-- Modelled from the spec: the 8x8 grid rendered rank 8 down to rank 1, one
line per rank. -/
def renderGridWith (symbol : Side → PieceKind → Char) (b : PieceCentricBoard) :
    List Char :=
  ((List.range 8).map (fun i => renderRankWith symbol b (8 - i) ++ ['\n'])).foldr
    (fun a r => a ++ r) []

/-- PieceCentricBoard::Dump(std::ostream&) from aiseu/chess/notation.cc line
55: the body is empty, so nothing is written to the sink. -/
def PieceCentricBoard.DumpToSink (_ : PieceCentricBoard) : List Char :=
  []

/-- Modelled from the spec: DumpFigurine(std::ostream&) renders the grid with
the figurine symbol tables of the source (their implementation file is not in
src; the grid traversal follows the design document's section 4.3). -/
def PieceCentricBoard.DumpFigurineToSink (b : PieceCentricBoard) : List Char :=
  renderGridWith
    (fun s k =>
      match s with
      | Side.kWhite => kWhitePieceToFigurine k
      | Side.kBlack => kBlackPieceToFigurine k) b

/-- The board occupancy as FEN board-field ranks, rank 8 first. -/
def boardGrid (b : PieceCentricBoard) : List (List Cell) :=
  (List.range 8).map (fun i => (List.range 8).map (fun f => b.OccupantAt ⟨f, 8 - i⟩))

/-- Modelled from the spec: DumpFEN(std::ostream&) renders the FEN board
field (digit compression, slash-separated ranks; implementation not in src). -/
def PieceCentricBoard.DumpFENToSink (b : PieceCentricBoard) : List Char :=
  formatBoard (boardGrid b)

/-- PieceCentricBoard::Dump() from aiseu/chess/board.cc lines 19-22: wraps
std::cout and calls Dump(os). -/
def PieceCentricBoard.DumpNoSink (b : PieceCentricBoard) : List Char :=
  b.DumpToSink

/-- PieceCentricBoard::DumpFigurine() from aiseu/chess/board.cc lines 24-27:
wraps std::cout and calls Dump(os) — not DumpFigurine(os). -/
def PieceCentricBoard.DumpFigurineNoSink (b : PieceCentricBoard) : List Char :=
  b.DumpToSink

/-- PieceCentricBoard::DumpFEN() from aiseu/chess/board.cc lines 29-32: wraps
std::cout and calls Dump(os) — not DumpFEN(os). -/
def PieceCentricBoard.DumpFENNoSink (b : PieceCentricBoard) : List Char :=
  b.DumpToSink

/-- The board value default construction produces: both piece sets built with
Side::kBlack. -/
def defaultBoard : PieceCentricBoard :=
  { black_pieces := { owner := Side.kBlack }, white_pieces := { owner := Side.kBlack } }

/-! ## Round-trip lemmas for the FEN codec -/

theorem charPiece_pieceChar (pc : Side × PieceKind) : charPiece (pieceChar pc) = some pc := by
  obtain ⟨s, k⟩ := pc
  cases s <;> cases k <;> rfl

theorem charToRank_pieceChar (pc : Side × PieceKind) : charToRank (pieceChar pc) = none := by
  obtain ⟨s, k⟩ := pc
  cases s <;> cases k <;> rfl

theorem charToRank_rankToChar (d : Nat) (h1 : 1 ≤ d) (h2 : d ≤ 8) :
    charToRank (rankToChar d) = some d := by
  interval_cases d <;> rfl

theorem parseRankChars_cons_piece (pc : Side × PieceKind) (cs : List Char) :
    parseRankChars (pieceChar pc :: cs) =
      (parseRankChars cs).map (fun cells => some pc :: cells) := by
  simp only [parseRankChars, charToRank_pieceChar, charPiece_pieceChar]

theorem parseRankChars_emitEmpties (n : Nat) (h : n ≤ 8) (cs : List Char) :
    parseRankChars (emitEmpties n ++ cs) =
      (parseRankChars cs).map (fun cells => List.replicate n (none : Cell) ++ cells) := by
  cases n with
  | zero => simp [emitEmpties]
  | succ m =>
    simp only [emitEmpties, List.cons_append, List.nil_append, parseRankChars,
      charToRank_rankToChar (m + 1) (by omega) h]
    rfl

theorem parseRankChars_formatRankAux (cells : List Cell) :
    ∀ n, n + cells.length ≤ 8 →
      parseRankChars (formatRankAux cells n) =
        some (List.replicate n (none : Cell) ++ cells) := by
  induction cells with
  | nil =>
    intro n h
    simp only [formatRankAux]
    have he := parseRankChars_emitEmpties n (by simpa using h) []
    simpa [parseRankChars] using he
  | cons c rest ih =>
    intro n h
    cases c with
    | none =>
      simp only [formatRankAux]
      rw [ih (n + 1) (by simp only [List.length_cons] at h; omega)]
      simp [List.replicate_succ', List.append_assoc]
    | some pc =>
      simp only [formatRankAux]
      rw [parseRankChars_emitEmpties n (by simp only [List.length_cons] at h; omega),
        parseRankChars_cons_piece,
        ih 0 (by simp only [List.length_cons] at h; omega)]
      simp

theorem parseRank_formatRank (cells : List Cell) (h : cells.length = 8) :
    parseRank (formatRank cells) = some cells := by
  rw [parseRank, formatRank, parseRankChars_formatRankAux cells 0 (by omega)]
  simp [h]

theorem rankToChar_ne (n : Nat) : rankToChar n ≠ '/' ∧ rankToChar n ≠ ' ' := by
  unfold rankToChar
  split <;> decide

theorem pieceChar_ne (pc : Side × PieceKind) : pieceChar pc ≠ '/' ∧ pieceChar pc ≠ ' ' := by
  obtain ⟨s, k⟩ := pc
  cases s <;> cases k <;> decide

theorem emitEmpties_chars (n : Nat) : ∀ c ∈ emitEmpties n, c ≠ '/' ∧ c ≠ ' ' := by
  cases n with
  | zero => simp [emitEmpties]
  | succ m =>
    intro c hc
    simp only [emitEmpties, List.mem_singleton] at hc
    subst hc
    exact rankToChar_ne _

theorem formatRankAux_chars (cells : List Cell) :
    ∀ n, ∀ c ∈ formatRankAux cells n, c ≠ '/' ∧ c ≠ ' ' := by
  induction cells with
  | nil => exact fun n => emitEmpties_chars n
  | cons cell rest ih =>
    intro n c hc
    cases cell with
    | none =>
      simp only [formatRankAux] at hc
      exact ih (n + 1) c hc
    | some pc =>
      simp only [formatRankAux, List.mem_append, List.mem_cons] at hc
      rcases hc with hc | hc | hc
      · exact emitEmpties_chars n c hc
      · subst hc; exact pieceChar_ne pc
      · exact ih 0 c hc

theorem formatRank_chars (cells : List Cell) : ∀ c ∈ formatRank cells, c ≠ '/' ∧ c ≠ ' ' :=
  formatRankAux_chars cells 0

theorem splitOnChar_ne_nil (sep : Char) (cs : List Char) : splitOnChar sep cs ≠ [] := by
  cases cs with
  | nil => simp [splitOnChar]
  | cons c cs =>
    simp only [splitOnChar]
    by_cases h : c = sep
    · simp [h]
    · rw [if_neg h]
      cases hs : splitOnChar sep cs <;> simp

theorem splitOnChar_not_mem (sep : Char) (a : List Char) (h : sep ∉ a) :
    splitOnChar sep a = [a] := by
  induction a with
  | nil => rfl
  | cons c cs ih =>
    have hc : ¬ c = sep := fun e => h (e ▸ List.mem_cons_self c cs)
    simp only [splitOnChar]
    rw [if_neg hc, ih (fun hm => h (List.mem_cons_of_mem c hm))]

theorem splitOnChar_append (sep : Char) (a rest : List Char) (h : sep ∉ a) :
    splitOnChar sep (a ++ sep :: rest) = a :: splitOnChar sep rest := by
  induction a with
  | nil => simp [splitOnChar]
  | cons c cs ih =>
    have hc : ¬ c = sep := fun e => h (e ▸ List.mem_cons_self c cs)
    simp only [List.cons_append, splitOnChar, List.append_eq]
    rw [if_neg hc, ih (fun hm => h (List.mem_cons_of_mem c hm))]

theorem formatBoard_chars (ranks : List (List Cell)) :
    ∀ c ∈ formatBoard ranks, c ≠ ' ' := by
  induction ranks with
  | nil => simp [formatBoard]
  | cons r rest ih =>
    cases rest with
    | nil =>
      intro c hc
      exact (formatRank_chars r c hc).2
    | cons r2 rest2 =>
      intro c hc
      simp only [formatBoard, List.mem_append, List.mem_cons] at hc
      rcases hc with hc | hc | hc
      · exact (formatRank_chars r c hc).2
      · subst hc; decide
      · exact ih c hc

theorem splitSlash_formatBoard (ranks : List (List Cell)) (h : ranks ≠ []) :
    splitOnChar '/' (formatBoard ranks) = ranks.map formatRank := by
  induction ranks with
  | nil => exact absurd rfl h
  | cons r rest ih =>
    cases rest with
    | nil =>
      simp only [formatBoard, List.map_cons, List.map_nil]
      exact splitOnChar_not_mem '/' (formatRank r) (fun hm => (formatRank_chars r '/' hm).1 rfl)
    | cons r2 rest2 =>
      simp only [formatBoard, List.map_cons]
      rw [splitOnChar_append '/' _ _ (fun hm => (formatRank_chars r '/' hm).1 rfl),
        ih (by simp)]
      rfl

theorem parseRanks_map (ranks : List (List Cell)) (h : ∀ r ∈ ranks, r.length = 8) :
    parseRanks (ranks.map formatRank) = some ranks := by
  induction ranks with
  | nil => rfl
  | cons r rest ih =>
    simp only [List.map_cons, parseRanks,
      parseRank_formatRank r (h r (List.mem_cons_self r rest)),
      ih (fun x hx => h x (List.mem_cons_of_mem r hx))]

theorem parseBoard_formatBoard (ranks : List (List Cell)) (hlen : ranks.length = 8)
    (h8 : ∀ r ∈ ranks, r.length = 8) :
    parseBoard (formatBoard ranks) = some ranks := by
  have hne : ranks ≠ [] := by
    intro e
    rw [e] at hlen
    simp at hlen
  simp [parseBoard, splitSlash_formatBoard ranks hne, hlen, parseRanks_map ranks h8]

/-! ### The remaining FEN fields -/

theorem parseActive_formatActive (s : Side) : parseActive (formatActive s) = some s := by
  cases s <;> rfl

theorem formatActive_ne_space (s : Side) : ∀ c ∈ formatActive s, c ≠ ' ' := by
  cases s <;> decide

theorem parseCastling_formatCastling (wk wq bk bq : Bool) :
    parseCastling (formatCastling wk wq bk bq) = some (wk, wq, bk, bq) := by
  cases wk <;> cases wq <;> cases bk <;> cases bq <;> decide

theorem formatCastling_ne_space (wk wq bk bq : Bool) :
    ∀ c ∈ formatCastling wk wq bk bq, c ≠ ' ' := by
  cases wk <;> cases wq <;> cases bk <;> cases bq <;> decide

theorem charToFile_fileToChar (f : Nat) (h : f < 8) : charToFile (fileToChar f) = some f := by
  interval_cases f <;> rfl

theorem fileToChar_ne_space (n : Nat) : fileToChar n ≠ ' ' := by
  unfold fileToChar
  split <;> decide

theorem parseEnPassant_formatEnPassant (ep : Option Position) (h : epOKB ep = true) :
    parseEnPassant (formatEnPassant ep) = some ep := by
  cases ep with
  | none => rfl
  | some p =>
    simp only [epOKB, posInRangeB, Bool.and_eq_true, decide_eq_true_eq] at h
    obtain ⟨⟨h1, h2⟩, h3⟩ := h
    simp only [formatEnPassant, parseEnPassant, charToFile_fileToChar p.file h1,
      charToRank_rankToChar p.rank h2 h3]

theorem formatEnPassant_ne_space (ep : Option Position) :
    ∀ c ∈ formatEnPassant ep, c ≠ ' ' := by
  cases ep with
  | none => decide
  | some p =>
    intro c hc
    simp only [formatEnPassant, List.mem_cons, List.not_mem_nil, or_false] at hc
    rcases hc with rfl | rfl
    · exact fileToChar_ne_space _
    · exact (rankToChar_ne _).2

theorem charsToNatAux_append (xs ys : List Char) (acc : Nat) :
    charsToNatAux (xs ++ ys) acc = charsToNatAux ys (charsToNatAux xs acc) := by
  induction xs generalizing acc with
  | nil => rfl
  | cons c cs ih =>
    simp only [List.cons_append, charsToNatAux]
    exact ih _

theorem digitToChar_val (d : Nat) (h : d < 10) :
    (digitToChar d).toNat - '0'.toNat = d := by
  interval_cases d <;> decide

theorem digitToChar_isDigit (d : Nat) (h : d < 10) : isDigitChar (digitToChar d) = true := by
  interval_cases d <;> decide

theorem digitToChar_ne_space (d : Nat) : digitToChar d ≠ ' ' := by
  unfold digitToChar
  split <;> decide

theorem charsToNatAux_digits (l : List Nat) (hl : ∀ d ∈ l, d < 10) (acc : Nat) :
    charsToNatAux ((l.reverse).map digitToChar) acc =
      acc * 10 ^ l.length + Nat.ofDigits 10 l := by
  induction l generalizing acc with
  | nil => simp [charsToNatAux, Nat.ofDigits_nil]
  | cons d L ih =>
    simp only [List.reverse_cons, List.map_append, List.map_cons, List.map_nil]
    rw [charsToNatAux_append, ih (fun x hx => hl x (List.mem_cons_of_mem d hx))]
    simp only [charsToNatAux]
    rw [digitToChar_val d (hl d (List.mem_cons_self d L))]
    rw [Nat.ofDigits_cons]
    simp only [List.length_cons, pow_succ]
    ring

theorem parseNat_natToChars (n : Nat) : parseNat (natToChars n) = some n := by
  by_cases h0 : n = 0
  · subst h0
    decide
  · rw [natToChars, if_neg h0]
    have hne : Nat.digits 10 n ≠ [] := Nat.digits_ne_nil_iff_ne_zero.mpr h0
    have hlt : ∀ d ∈ Nat.digits 10 n, d < 10 :=
      fun d hd => Nat.digits_lt_base (by norm_num) hd
    rw [parseNat, if_neg (by simp [hne]), if_pos ?_]
    · rw [charsToNatAux_digits (Nat.digits 10 n) hlt 0]
      simp [Nat.ofDigits_digits]

    · simp only [List.all_eq_true, List.mem_map, List.mem_reverse]
      rintro c ⟨d, hd, rfl⟩
      exact digitToChar_isDigit d (hlt d hd)

theorem natToChars_ne_space (n : Nat) : ∀ c ∈ natToChars n, c ≠ ' ' := by
  intro c hc
  rw [natToChars] at hc
  by_cases h0 : n = 0
  · rw [if_pos h0] at hc
    simp only [List.mem_singleton] at hc
    subst hc
    decide
  · rw [if_neg h0] at hc
    simp only [List.mem_map, List.mem_reverse] at hc
    obtain ⟨d, _, rfl⟩ := hc
    exact digitToChar_ne_space d

/-! ### Assembling the six fields -/

theorem splitSpace_formatFEN (g : FenGame) :
    splitOnChar ' ' (FormatFEN g) =
      [formatBoard g.board, formatActive g.active_player,
       formatCastling g.white_king_side_castle g.white_queen_side_castle
         g.black_king_side_castle g.black_queen_side_castle,
       formatEnPassant g.en_passant_target,
       natToChars g.halfmove_clock, natToChars g.fullmove_number] := by
  rw [FormatFEN,
    splitOnChar_append ' ' _ _ (fun hm => formatBoard_chars g.board ' ' hm rfl),
    splitOnChar_append ' ' _ _ (fun hm => formatActive_ne_space g.active_player ' ' hm rfl),
    splitOnChar_append ' ' _ _ (fun hm => formatCastling_ne_space _ _ _ _ ' ' hm rfl),
    splitOnChar_append ' ' _ _ (fun hm => formatEnPassant_ne_space _ ' ' hm rfl),
    splitOnChar_append ' ' _ _ (fun hm => natToChars_ne_space _ ' ' hm rfl),
    splitOnChar_not_mem ' ' _ (fun hm => natToChars_ne_space _ ' ' hm rfl)]

/-! ## Claim theorems -/

/-- C2: for every structurally well-formed FEN game state (an 8x8 board and
an in-range en-passant target — the shape of every reachable Game), parsing
the FEN text produced by formatting the state yields the state back in all
observable fields. The codec is modelled from the design document, since the
repository only declares it. -/
theorem ParseFEN_FormatFEN_roundtrip (g : FenGame) (h : g.wellFormedB = true) :
    ParseFEN (FormatFEN g) = Except.ok g := by
  simp only [FenGame.wellFormedB, Bool.and_eq_true, List.all_eq_true,
    decide_eq_true_eq] at h
  obtain ⟨⟨hb, h8⟩, hep⟩ := h
  simp only [ParseFEN, splitSpace_formatFEN g,
    parseBoard_formatBoard g.board hb h8,
    parseActive_formatActive,
    parseCastling_formatCastling,
    parseEnPassant_formatEnPassant g.en_passant_target hep,
    parseNat_natToChars]

/-- C2 witness: the round trip evaluated at the standard starting position,
whose FormatFEN text is rnbqkbnr/pppppppp/8/8/8/8/PPPPPPPP/RNBQKBNR w KQkq -
0 1. -/
theorem ParseFEN_FormatFEN_roundtrip_witness :
    ParseFEN (FormatFEN startFenGame) = Except.ok startFenGame :=
  ParseFEN_FormatFEN_roundtrip startFenGame (by decide)

/-- C1: the default-constructed Game does not yield the standard starting
position. The active player is White and halfmove_clock is 0 as claimed, but
fullmove_number is 0 (not 1), all four castling-availability flags are false
(not set), and the board pointer is default-constructed to null, so no board
holds the standard opening layout. -/
theorem game_default_diverges_from_start_position :
    mkGame.active_player = Side.kWhite ∧
    mkGame.halfmove_clock = 0 ∧
    mkGame.fullmove_number = 0 ∧
    mkGame.fullmove_number ≠ 1 ∧
    mkGame.white_king_side_castle_available = false ∧
    mkGame.white_queen_side_castle_available = false ∧
    mkGame.black_king_side_castle_available = false ∧
    mkGame.black_queen_side_castle_available = false ∧
    mkGame.board = none := by
  decide

/-- C3 counterexample: on the input "i9" the source's square parser fires an
ABSL_ASSERT (an abort, modelled as the assertionFailure outcome); it does not
produce the recoverable InvalidNotation error value the claim describes. -/
theorem algebraicPosition_i9_asserts_not_invalid :
    AlgebraicPosition ['i', '9'] = Except.error NotationError.assertionFailure ∧
    Except.error NotationError.assertionFailure ≠
      (Except.error NotationError.invalidNotationError : Except NotationError Position) := by
  decide

/-- C3 (amended): AlgebraicPosition returns the corresponding Position exactly
when the input has 2 characters, the first in 'a'..'h' and the second in
'1'..'8'; on every other input an assertion fails (a debug-build abort), not a
recoverable InvalidNotation error. The function is pure. -/
theorem algebraicPosition_matches_spec_with_assert (cs : List Char) :
    AlgebraicPosition cs = algebraicSquareSpec cs := by
  match cs with
  | [] => rfl
  | [_] => rfl
  | _ :: _ :: _ :: _ => rfl
  | [c0, c1] =>
    by_cases h1 : '1' ≤ c1 ∧ c1 ≤ '8' <;>
      by_cases h0 : 'a' ≤ c0 ∧ c0 ≤ 'h' <;>
        simp [AlgebraicPosition, algebraicSquareSpec, FileToNumeric, h0, h1]

/-- C4: PieceSet construction does not produce the standard starting layout.
For White the constructor asserts while parsing its eighth pawn literal; for
Black it records no position at all, and no knight, bishop, rook or queen
position is ever set for either side. -/
theorem pieceSet_construction_not_standard_layout :
    mkPieceSet Side.kWhite = Except.error NotationError.assertionFailure ∧
    mkPieceSet Side.kBlack = Except.ok { owner := Side.kBlack } ∧
    ({ owner := Side.kBlack } : PieceSet).king_position = none ∧
    ({ owner := Side.kBlack } : PieceSet).queen_position = none ∧
    ({ owner := Side.kBlack } : PieceSet).pawn_positions = none ∧
    ({ owner := Side.kBlack } : PieceSet).knight_positions = none ∧
    ({ owner := Side.kBlack } : PieceSet).bishop_positions = none ∧
    ({ owner := Side.kBlack } : PieceSet).rook_positions = none := by
  decide

/-- C5: the default-constructed PieceCentricBoard builds its white piece set
with owner Side::kBlack, not Side::kWhite. -/
theorem pieceCentricBoard_white_pieces_owner_is_black :
    mkPieceCentricBoard = Except.ok defaultBoard ∧
    defaultBoard.white_pieces.owner = Side.kBlack ∧
    Side.kBlack ≠ Side.kWhite := by
  decide

/-- C6: immediately after construction (for Black, the side whose constructor
completes) the PieceSet records 8 pawns, 8 knights, 8 bishops, 8 rooks, a
queen and a king: 34 live pieces, exceeding the claimed bound of 16. -/
theorem pieceSet_total_count_is_34 :
    mkPieceSet Side.kBlack = Except.ok { owner := Side.kBlack } ∧
    PieceSet.totalCount { owner := Side.kBlack } = 34 ∧
    ¬ PieceSet.totalCount { owner := Side.kBlack } ≤ 16 := by
  decide

/-- C7: the algebraic symbol tables map the knight to 'K' (White) and 'k'
(Black), the same symbols as the king, so two distinct piece kinds of the
same side render identically — not the standard 'N'/'n'. -/
theorem knight_algebraic_symbol_collides_with_king :
    kWhitePieceToAlgebraic PieceKind.kKnight = 'K' ∧
    kWhitePieceToAlgebraic PieceKind.kKnight = kWhitePieceToAlgebraic PieceKind.kKing ∧
    kBlackPieceToAlgebraic PieceKind.kKnight = 'k' ∧
    kBlackPieceToAlgebraic PieceKind.kKnight = kBlackPieceToAlgebraic PieceKind.kKing ∧
    PieceKind.kKnight ≠ PieceKind.kKing := by
  decide

/-- C8: the sink-less Dump() overload does forward to Dump(os), but
DumpFigurine() and DumpFEN() also forward to Dump(os), so on the
default-constructed board their output differs from what their sink-taking
counterparts write. -/
theorem dump_sinkless_overloads_forward_to_dump :
    mkPieceCentricBoard = Except.ok defaultBoard ∧
    defaultBoard.DumpNoSink = defaultBoard.DumpToSink ∧
    defaultBoard.DumpFigurineNoSink = defaultBoard.DumpToSink ∧
    defaultBoard.DumpFENNoSink = defaultBoard.DumpToSink ∧
    defaultBoard.DumpFigurineNoSink ≠ defaultBoard.DumpFigurineToSink ∧
    defaultBoard.DumpFENNoSink ≠ defaultBoard.DumpFENToSink := by
  decide

/-- C9: constructing PieceSet(Side::kWhite) reaches the call
AlgebraicPosition("h2)") whose argument has 3 characters, so the size == 2
assertion fails and White's construction aborts, while the preceding
two-character calls (for example "g2") succeed. -/
theorem pieceSet_white_hits_size_assertion :
    (['h', '2', ')'] : List Char).length ≠ 2 ∧
    AlgebraicPosition ['h', '2', ')'] = Except.error NotationError.assertionFailure ∧
    AlgebraicPosition ['g', '2'] = Except.ok ⟨6, 2⟩ ∧
    mkPieceSet Side.kWhite = Except.error NotationError.assertionFailure := by
  decide

/-- C10: the figurine tables narrow their char16_t code points into char, so
U+2654..U+2659 become 0x54 'T' .. 0x59 'Y', and the black table repeats the
white code points, so black and white figurine symbols are identical for
every piece kind. -/
theorem figurine_tables_truncated_and_identical :
    (∀ k, kWhitePieceToFigurine k = kBlackPieceToFigurine k) ∧
    whiteFigurineCodepoint PieceKind.kKing = 0x2654 ∧
    whiteFigurineCodepoint PieceKind.kPawn = 0x2659 ∧
    0x2654 % 256 = 0x54 ∧
    0x2659 % 256 = 0x59 ∧
    kWhitePieceToFigurine PieceKind.kKing = 'T' ∧
    kWhitePieceToFigurine PieceKind.kQueen = 'U' ∧
    kWhitePieceToFigurine PieceKind.kRook = 'V' ∧
    kWhitePieceToFigurine PieceKind.kBishop = 'W' ∧
    kWhitePieceToFigurine PieceKind.kKnight = 'X' ∧
    kWhitePieceToFigurine PieceKind.kPawn = 'Y' :=
  ⟨fun k => by cases k <;> rfl, by decide⟩

end Chess
